import Mathlib

/-!
Shallow embedding of `bot/core/telegram_bot.py` (class `TelegramBot`):
the redactor, the response dispatcher, the per-category handler registry
(`update_plugin_event` / `events_activated`), the startup sequence
(`init_client` / `start`) and the top-level `run` teardown discipline.
External collaborators (the pyrogram client, the plugin loader, the
database, the event fan-out) are modelled as explicit inputs, and every
externally visible action is recorded in an explicit call trace.
-/

namespace TgBot

/-! ### Python string primitives

`redact_message` uses the Python expressions `secret in text` and
`text.replace(secret, "[REDACTED]")`.  We model Python `str` as
`List Char` wrapped in `String` and reproduce Python semantics exactly:
`"" in s` is `True` for every `s`, and `s.replace("", new)` inserts
`new` before every character and once more at the end. -/

/-- `startsWithL n h` is Python-style: does list `h` start with list `n`? -/
def startsWithL : List Char → List Char → Bool
  | [], _ => true
  | _ :: _, [] => false
  | a :: as, b :: bs => a = b && startsWithL as bs

/-- Python `needle in hay` on strings as char lists: substring containment,
with the Python convention that the empty string is contained in everything. -/
def containsSubL (needle : List Char) : List Char → Bool
  | [] => needle.isEmpty
  | c :: rest => startsWithL needle (c :: rest) || containsSubL needle rest

/-- Left-to-right non-overlapping replacement for a NON-empty pattern
(mirrors CPython `str.replace` for non-empty `old`).  Only ever called with
`old ≠ []` from `pyReplaceL`. -/
def pyReplaceNEL (old new : List Char) : List Char → List Char
  | [] => []
  | c :: rest =>
    if startsWithL old (c :: rest) then
      new ++ pyReplaceNEL old new (rest.drop (old.length - 1))
    else
      c :: pyReplaceNEL old new rest
termination_by s => s.length
decreasing_by
  · simp only [List.length_drop, List.length_cons]
    omega
  · simp only [List.length_cons]
    omega

/-- Python `s.replace(old, new)`: for the empty pattern, `new` is inserted at
every gap of `s` (before each char and after the last one), exactly as in
CPython (`"ab".replace("", "X") == "XaXbX"`). -/
def pyReplaceL (old new s : List Char) : List Char :=
  if old.isEmpty then
    new ++ s.flatMap (fun c => c :: new)
  else
    pyReplaceNEL old new s

/-- Python `needle in hay` on `String`. -/
def pyContains (needle hay : String) : Bool :=
  containsSubL needle.toList hay.toList

/-- Python `s.replace(old, new)` on `String`. -/
def pyReplaceS (old new s : String) : String :=
  String.mk (pyReplaceL old.toList new.toList s.toList)

/-! ### Configuration and the redactor -/

/-- The recognized configuration surface of `util.config.TelegramConfig`.
`util/config.py` is not in `src/`; per the spec the recognized options are
`api_id`, `api_hash`, `bot_token`, `db_uri`, `owner_id`, read from the
environment, with an absent variable behaving as the falsy empty string.
The code calls `int(self.config["owner_id"])`; we keep the parsed integer. -/
structure TelegramConfig where
  api_id : String
  api_hash : String
  bot_token : String
  db_uri : String
  owner_id : Int
deriving DecidableEq

/-- `TelegramBot.redact_message`, line for line: for each of the four secret
values, `if secret in text: text = text.replace(secret, "[REDACTED]")`. -/
def redact_message (config : TelegramConfig) (text : String) : String :=
  let t1 := if pyContains config.api_id text then
    pyReplaceS config.api_id "[REDACTED]" text else text
  let t2 := if pyContains config.api_hash t1 then
    pyReplaceS config.api_hash "[REDACTED]" t1 else t1
  let t3 := if pyContains config.bot_token t2 then
    pyReplaceS config.bot_token "[REDACTED]" t2 else t2
  if pyContains config.db_uri t3 then
    pyReplaceS config.db_uri "[REDACTED]" t3 else t3

/-- Modelled from the spec: `util.tg.truncate` is called by `respond` but
`bot/util/tg.py` is not in `src/`.  Spec §4.2: result has length ≤ limit,
truncating the tail and appending a minimal truncation indicator when the
input exceeds the limit; a no-op on compliant input; the reference limit is
4096 characters. -/
def truncate (text : String) (limit : Nat := 4096) : String :=
  if text.length ≤ limit then text
  else String.mk (text.toList.take (limit - 1) ++ ['…'])

/-! ### Response dispatcher -/

/-- The single external send-or-edit call a successful `respond` performs.
Messages are identified by numeric ids.  `reply target text` is
`msg.reply(text)` creating a new message in reply to `target`;
`editMsg target text` is `response.edit(text=text)` mutating the message
`target` in place. -/
inductive RespondAction where
  | reply (target : Nat) (text : String)
  | editMsg (target : Nat) (text : String)
deriving DecidableEq

/-- The text `respond` hands to the transport: redaction (when enabled)
followed by truncation, in that order. -/
def respondText (config : TelegramConfig) (text : String) (redact : Bool) : String :=
  truncate (if redact then redact_message config text else text)

/-- `TelegramBot.respond`.  Default arguments mirror the Python signature
(`mode="edit"`, `redact=True`, `response=None`).  A successful call returns
the one external action performed; the `ValueError` branch returns the
error message and performs no external call. -/
def respond (config : TelegramConfig) (msg : Nat) (text : String)
    (mode : String := "edit") (redact : Bool := true)
    (response : Option Nat := none) : Except String RespondAction :=
  let text := respondText config text redact
  if mode = "reply" ∨ (response = none ∧ mode = "edit") then
    Except.ok (RespondAction.reply msg text)
  else
    match response with
    | some r =>
      if mode = "edit" then Except.ok (RespondAction.editMsg r text)
      else Except.error ("Unknown response mode " ++ mode)
    | none => Except.error ("Unknown response mode " ++ mode)

/-! ### Handler registry (`update_plugin_event`)

`self._plugin_event_handlers` is a Python dict mapping an event name to
the `(handler_object, group)` tuple that was passed to
`client.add_handler`.  We model the dict as an insertion-ordered
association list with unique keys, and handler-object identity by a fresh
natural number drawn from a counter (each `event_type(event_handler,
filters)` expression constructs a brand-new object). -/

/-- One call made on the external pyrogram `Client`. -/
inductive ClientCall where
  | addHandler (hook : Nat) (group : Int)
  | removeHandler (hook : Nat) (group : Int)
  | connect
  | getMe
deriving DecidableEq

/-- `self._plugin_event_handlers` entries: `(name, (hook object, group))`. -/
abbrev HandlerTable := List (String × Nat × Int)

/-- Python `name in dict` / `dict[name]` on the handler table. -/
def tblGet (name : String) : HandlerTable → Option (Nat × Int)
  | [] => none
  | (n, h, g) :: rest => if n = name then some (h, g) else tblGet name rest

/-- Python `del dict[name]` on the handler table (keys are unique, so
removing every entry with the key equals removing the one entry). -/
def tblDel (name : String) (t : HandlerTable) : HandlerTable :=
  t.filter (fun e => e.1 ≠ name)

/-- Registry state: the handler dict plus the supply of fresh handler
object identities. -/
structure RegState where
  table : HandlerTable
  nextHook : Nat
deriving DecidableEq

/-- `TelegramBot.update_plugin_event(name, event_type, filters=None, group=0)`.
`listeners name` is the fan-out's listener count for the event name;
Python `name in self.listeners` holds iff the count is positive.  Returns
the new registry state together with the calls made on the client. -/
def update_plugin_event (listeners : String → Nat) (s : RegState)
    (name : String) (group : Int := 0) : RegState × List ClientCall :=
  if 0 < listeners name then
    match tblGet name s.table with
    | some _ => (s, [])
    | none =>
      (⟨s.table ++ [(name, s.nextHook, group)], s.nextHook + 1⟩,
       [ClientCall.addHandler s.nextHook group])
  else
    match tblGet name s.table with
    | some hg =>
      (⟨tblDel name s.table, s.nextHook⟩, [ClientCall.removeHandler hg.1 hg.2])
    | none => (s, [])

/-- `TelegramBot.update_plugin_events`: reconcile the three dynamic
categories in their fixed order, all at the default group 0. -/
def update_plugin_events (listeners : String → Nat) (s : RegState) :
    RegState × List ClientCall :=
  let r1 := update_plugin_event listeners s "callback_query"
  let r2 := update_plugin_event listeners r1.1 "inline_query"
  let r3 := update_plugin_event listeners r2.1 "message"
  (r3.1, r1.2 ++ r2.2 ++ r3.2)

/-- `TelegramBot.events_activated`: `len(self._plugin_event_handlers)`. -/
def events_activated (s : RegState) : Nat :=
  s.table.length

/-- Run a sequence of `update_plugin_event` calls from a state; each step
carries its own listener-count snapshot (counts change between calls), the
event name and the group.  Collects all client calls in order. -/
def runSeqFrom (s : RegState) :
    List ((String → Nat) × String × Int) → RegState × List ClientCall
  | [] => (s, [])
  | (l, n, g) :: rest =>
    let r1 := update_plugin_event l s n g
    let r2 := runSeqFrom r1.1 rest
    (r2.1, r1.2 ++ r2.2)

/-- The multiset of `(hook, group)` pairs currently installed on the
client after one call: `add_handler` inserts the pair, `remove_handler`
removes the (unique) matching pair. -/
def applyCall (inst : Multiset (Nat × Int)) : ClientCall → Multiset (Nat × Int)
  | ClientCall.addHandler h g => (h, g) ::ₘ inst
  | ClientCall.removeHandler h g => inst.erase (h, g)
  | ClientCall.connect => inst
  | ClientCall.getMe => inst

/-- Installed `(hook, group)` pairs after a whole call log. -/
def applyCalls (inst : Multiset (Nat × Int)) (cs : List ClientCall) :
    Multiset (Nat × Int) :=
  cs.foldl applyCall inst

/-! ### Startup (`init_client` and `start`) -/

/-- The external collaborators `start` consults, as explicit inputs:
the configuration, the plugin names loaded by `load_all_plugins`, whether
`client.start()` succeeds (it raises `AttributeError` when interactive
authorization input is unavailable), whether `get_me` returns a full
`User`, that user's id, the records of the `sudoers` collection, and the
clock value `util.time.usec()`. -/
structure StartEnv where
  config : TelegramConfig
  plugins : List String
  clientStartOk : Bool
  getMeOk : Bool
  meId : Nat
  sudoRecords : List Int
  startTimeUs : Nat

/-- Externally observable steps of `TelegramBot.start`, in order. -/
inductive StartStep where
  | initClient
  | addCoreHandler (hook : Nat) (group : Int)
  | loadPlugins
  | dispatchEvent (name : String)
  | setLoaded
  | clientConnect
  | getMe
  | dbFind (records : List Int)
  | logReady
deriving DecidableEq

/-- The `TelegramBot` session fields touched by startup. -/
structure BotState where
  reg : RegState
  loaded : Bool
  sudo_users : List Int
  uid : Nat
  owner : Int
  start_time_us : Nat
deriving DecidableEq

/-- The freshly constructed bot (`__init__`): empty handler dict, not
loaded, empty sudoer set. -/
def initialBot : BotState :=
  ⟨⟨[], 0⟩, false, [], 0, 0, 0⟩

/-- Result of running `start`: final session state, the observable step
trace, the calls made on the external client, and the raised error (the
exact `RuntimeError` / `TypeError` message, or `AttributeError` re-raised
from `client.start()`), if any. -/
structure StartResult where
  state : BotState
  trace : List StartStep
  calls : List ClientCall
  error : Option String
deriving DecidableEq

/-- Python `set.add` folded over the async `db.find()` cursor. -/
def setAddAll (base : List Int) (records : List Int) : List Int :=
  records.foldl (fun acc i => if i ∈ acc then acc else acc ++ [i]) base

/-- `TelegramBot.start`, including the inlined `init_client`:
1. `init_client` checks `api_id`, `api_hash`, `bot_token` in that order and
   raises `RuntimeError` naming the variable before the `Client` is built;
2. the two core handlers are installed at groups −1 and 0 (handler object
   ids 0 and 1, outside the plugin-event dict);
3. `load_all_plugins`, dispatch `"load"`, set `loaded = True`;
4. the `Aria2` and `GoogleDrive` mandatory-plugin checks;
5. `client.start()` (`AttributeError` logged and re-raised on failure);
6. `get_me` (`TypeError` if no full `User`), record `uid` and `owner`;
7. read the whole `sudoers` collection into `sudo_users`;
8. record the start time, dispatch `"start"`, log readiness, dispatch
   `"started"`. -/
def startBot (env : StartEnv) : StartResult :=
  if env.config.api_id = "" then
    ⟨initialBot, [], [], some "API_ID environment variable not set"⟩
  else if env.config.api_hash = "" then
    ⟨initialBot, [], [], some "API_HASH environment variable not set"⟩
  else if env.config.bot_token = "" then
    ⟨initialBot, [], [], some "BOT_TOKEN environment variable not set"⟩
  else
    let trace0 : List StartStep :=
      [StartStep.initClient, StartStep.addCoreHandler 0 (-1),
       StartStep.addCoreHandler 1 0, StartStep.loadPlugins,
       StartStep.dispatchEvent "load", StartStep.setLoaded]
    let calls0 : List ClientCall :=
      [ClientCall.addHandler 0 (-1), ClientCall.addHandler 1 0]
    let s1 : BotState := { initialBot with reg := ⟨[], 2⟩, loaded := true }
    if "Aria2" ∉ env.plugins then
      ⟨s1, trace0, calls0, some "Aria2 websocket is not running, exiting..."⟩
    else if "GoogleDrive" ∉ env.plugins then
      ⟨s1, trace0, calls0,
       some "GoogleDrive environment variable needed not set"⟩
    else if ¬ env.clientStartOk then
      ⟨s1, trace0 ++ [StartStep.clientConnect],
       calls0 ++ [ClientCall.connect], some "AttributeError"⟩
    else if ¬ env.getMeOk then
      ⟨s1, trace0 ++ [StartStep.clientConnect, StartStep.getMe],
       calls0 ++ [ClientCall.connect, ClientCall.getMe],
       some "Missing full self user information"⟩
    else
      ⟨{ s1 with
          uid := env.meId
          owner := env.config.owner_id
          sudo_users := setAddAll [] env.sudoRecords
          start_time_us := env.startTimeUs },
       trace0 ++
         [StartStep.clientConnect, StartStep.getMe,
          StartStep.dbFind env.sudoRecords, StartStep.dispatchEvent "start",
          StartStep.logReady, StartStep.dispatchEvent "started"],
       calls0 ++ [ClientCall.connect, ClientCall.getMe], none⟩

/-! ### Top-level `run` -/

/-- A Python exception, as far as `run` distinguishes them:
`KeyboardInterrupt` versus everything else. -/
inductive Exc where
  | kb
  | other (tag : String)
deriving DecidableEq

/-- Observable steps of `TelegramBot.run`. -/
inductive RunStep where
  | callStart
  | logWarnInterrupt
  | callIdle
  | callStop
  | callLoopStop
deriving DecidableEq

/-- `TelegramBot.run`, with the outcomes of the awaited collaborators as
inputs (`none` = returns normally, `some e` = raises `e`):

```
try:
    try:
        await self.start()
    except KeyboardInterrupt:
        self.log.warning(...); return
    await self.idle()
finally:
    try:
        await self.stop()
    finally:
        self.loop.stop()
```

Returns the step trace and the exception `run` itself raises, if any.
Python semantics: an exception raised in a `finally` block replaces the
in-flight exception; `loop.stop()` does not raise. -/
def run (startO idleO stopO : Option Exc) : List RunStep × Option Exc :=
  let body : List RunStep × Option Exc :=
    match startO with
    | some Exc.kb => ([RunStep.callStart, RunStep.logWarnInterrupt], none)
    | some e => ([RunStep.callStart], some e)
    | none => ([RunStep.callStart, RunStep.callIdle], idleO)
  match stopO with
  | none => (body.1 ++ [RunStep.callStop, RunStep.callLoopStop], body.2)
  | some e2 => (body.1 ++ [RunStep.callStop, RunStep.callLoopStop], some e2)

/-- The lifecycle event name dispatched by a trace step, if any. -/
def evName : StartStep → Option String
  | StartStep.dispatchEvent n => some n
  | _ => none

/-- The two permanent core handlers installed by `start`: command routing
(handler object 0) at group −1 and conversation routing (handler object 1)
at group 0. -/
def coreMS : Multiset (Nat × Int) :=
  {(0, -1), (1, 0)}

/-- The `(hook, group)` pairs recorded in the handler dict, as a multiset. -/
def tableMS (t : HandlerTable) : Multiset (Nat × Int) :=
  (t.map (fun e => e.2) : List (Nat × Int))

/-- Well-formedness of the registry relative to the hook-identity supply:
unique keys (Python dict), pairwise-distinct hook objects, and every
recorded hook drawn from the counter (below `nextHook`). -/
structure RegInv (s : RegState) : Prop where
  keys : (s.table.map (fun e => e.1)).Nodup
  hooks : (s.table.map (fun e => e.2.1)).Nodup
  bound : ∀ e ∈ s.table, e.2.1 < s.nextHook

/-- A concrete successful-start environment used in closed instances. -/
def envC5 : StartEnv :=
  ⟨⟨"a", "b", "c", "d", 7⟩, ["Aria2", "GoogleDrive"], true, true, 42, [7, 42], 99⟩

/-! ### Shared helper lemmas -/

theorem tblGet_tblDel (name : String) (t : HandlerTable) :
    tblGet name (tblDel name t) = none := by
  induction t with
  | nil => rfl
  | cons e rest ih =>
    rcases e with ⟨n, h, g⟩
    by_cases hn : n = name
    · simpa [tblDel, List.filter_cons, hn] using ih
    · simpa [tblDel, List.filter_cons, hn, tblGet] using ih

theorem tblGet_append_single (name : String) (t : HandlerTable) (h : Nat) (g : Int)
    (hnone : tblGet name t = none) :
    tblGet name (t ++ [(name, h, g)]) = some (h, g) := by
  induction t with
  | nil => simp [tblGet]
  | cons e rest ih =>
    rcases e with ⟨n, hv, gv⟩
    by_cases hn : n = name
    · simp [tblGet, hn] at hnone
    · simp only [tblGet, hn, if_false, List.cons_append] at hnone ⊢
      exact ih hnone

/-- Keys of the handler dict are pairwise distinct (Python dict semantics). -/
def KeysNodup (t : HandlerTable) : Prop :=
  (t.map (fun e => e.1)).Nodup

theorem tblGet_none_not_mem (name : String) (t : HandlerTable)
    (h : tblGet name t = none) : name ∉ t.map (fun e => e.1) := by
  induction t with
  | nil => simp
  | cons e rest ih =>
    rcases e with ⟨n, hv, gv⟩
    by_cases hn : n = name
    · simp [tblGet, hn] at h
    · simp only [tblGet, hn, if_false] at h
      simp only [List.map_cons]
      intro hmem
      rcases List.mem_cons.mp hmem with he | hm
      · exact hn he.symm
      · exact ih h hm

theorem keysNodup_update (l : String → Nat) (s : RegState) (name : String)
    (g : Int) (h : KeysNodup s.table) :
    KeysNodup (update_plugin_event l s name g).1.table := by
  unfold update_plugin_event
  by_cases hl : 0 < l name
  · simp only [hl, if_true]
    cases hg : tblGet name s.table with
    | some v => exact h
    | none =>
      simp only [KeysNodup, List.map_append, List.map_cons, List.map_nil]
      rw [List.nodup_append]
      refine ⟨h, List.nodup_singleton name, ?_⟩
      intro a ha hb
      simp only [List.mem_singleton] at hb
      subst hb
      exact tblGet_none_not_mem _ s.table hg ha
  · simp only [hl, if_false]
    cases hg : tblGet name s.table with
    | some v =>
      exact List.Nodup.sublist
        (List.Sublist.map _ (List.filter_sublist s.table)) h
    | none => exact h

theorem keysNodup_runSeqFrom (seq : List ((String → Nat) × String × Int))
    (s : RegState) (h : KeysNodup s.table) :
    KeysNodup (runSeqFrom s seq).1.table := by
  induction seq generalizing s with
  | nil => exact h
  | cons step rest ih =>
    rcases step with ⟨l, n, g⟩
    exact ih _ (keysNodup_update l s n g h)

theorem filter_key_length_le_one (name : String) (t : HandlerTable)
    (h : KeysNodup t) :
    (t.filter (fun e => e.1 = name)).length ≤ 1 := by
  induction t with
  | nil => simp
  | cons e rest ih =>
    rcases e with ⟨n, hv, gv⟩
    simp only [KeysNodup, List.map_cons, List.nodup_cons] at h
    by_cases hn : n = name
    · subst hn
      have hrest : rest.filter (fun e => e.1 = n) = [] := by
        refine List.filter_eq_nil_iff.mpr ?_
        intro a ha
        simp only [decide_eq_true_eq]
        intro hk
        exact h.1 (hk ▸ List.mem_map_of_mem (fun e => e.1) ha)
      simp [List.filter_cons, hrest]
    · simpa [List.filter_cons, hn] using ih h.2

/-! ### Claim theorems -/

/-- Claim C1 (code bug): the spec requires that redacting with an
empty-string secret value leaves the text unchanged, but the code guard
`if secret in text` is vacuous for the empty string in Python
(`"" in text` is always `True`), and `text.replace("", "[REDACTED]")`
inserts the placeholder at every character gap.  With `api_id = ""` and
the other secrets absent from the text, the text `ab` is corrupted. -/
theorem redact_message_empty_secret_corrupts :
    redact_message ⟨"", "qq", "rr", "ss", 0⟩ "ab"
      = "[REDACTED]a[REDACTED]b[REDACTED]" ∧
    redact_message ⟨"", "qq", "rr", "ss", 0⟩ "ab" ≠ "ab" := by
  exact ⟨rfl, by decide⟩

/-- Claim C2: the `respond` mode decision table.  `mode = "reply"` creates
a reply to `msg` regardless of the prior response; `mode = "edit"` with no
prior response falls back to a reply; `mode = "edit"` with a prior
response edits exactly that message; any other mode yields the
invalid-mode `ValueError` and, in this embedding, no `RespondAction` at
all (the `Except.error` result carries no send or edit call). -/
theorem respond_mode_table (config : TelegramConfig) (msg : Nat) (text : String)
    (redact : Bool) (mode : String) (response : Option Nat) :
    (mode = "reply" →
      respond config msg text mode redact response
        = Except.ok (RespondAction.reply msg (respondText config text redact))) ∧
    (mode = "edit" → response = none →
      respond config msg text mode redact response
        = Except.ok (RespondAction.reply msg (respondText config text redact))) ∧
    (∀ r, mode = "edit" → response = some r →
      respond config msg text mode redact response
        = Except.ok (RespondAction.editMsg r (respondText config text redact))) ∧
    (mode ≠ "reply" → mode ≠ "edit" →
      respond config msg text mode redact response
        = Except.error ("Unknown response mode " ++ mode)) := by
  refine ⟨?_, ?_, ?_, ?_⟩
  · intro h
    subst h
    simp [respond]
  · intro h1 h2
    subst h1
    subst h2
    simp [respond]
  · intro r h1 h2
    subst h1
    subst h2
    simp [respond]
  · intro h1 h2
    cases response with
    | none => simp [respond, h1, h2]
    | some r => simp [respond, h1, h2]

/-- Witness for C2: the invalid-mode branch at a concrete input. -/
theorem respond_mode_table_witness :
    respond ⟨"q", "r", "s", "t", 0⟩ 5 "hi" "weird" true (some 9)
      = Except.error ("Unknown response mode " ++ "weird") :=
  (respond_mode_table ⟨"q", "r", "s", "t", 0⟩ 5 "hi" true "weird" (some 9)).2.2.2
    (by decide) (by decide)

/-- Claim C10: `respond(msg, text)` with the keyword arguments omitted
uses the Python defaults `mode="edit"`, `redact=True`, `response=None`,
so it redacts the text against the configured secrets, truncates it, and
creates a new reply to `msg` (no edit happens). -/
theorem respond_defaults (config : TelegramConfig) (msg : Nat) (text : String) :
    respond config msg text
      = Except.ok
          (RespondAction.reply msg (truncate (redact_message config text))) := by
  simp [respond, respondText]

/-- Claim C9: on every exit path of `run` — normal completion,
`KeyboardInterrupt` during startup, or any propagated failure — teardown
executes: `stop` is invoked and the scheduler stop (`loop.stop()`) is the
last action, even when `stop` itself raises; a `KeyboardInterrupt` raised
by `start` is the sole suppressed exception: it is logged, `idle` is never
entered, and `run` returns cleanly, while any other startup exception
propagates (after teardown). -/
theorem run_teardown_discipline (startO idleO stopO : Option Exc) :
    RunStep.callStop ∈ (run startO idleO stopO).1 ∧
    (run startO idleO stopO).1.getLast? = some RunStep.callLoopStop ∧
    (startO = some Exc.kb →
      RunStep.logWarnInterrupt ∈ (run startO idleO stopO).1 ∧
      RunStep.callIdle ∉ (run startO idleO stopO).1 ∧
      (stopO = none → (run startO idleO stopO).2 = none)) ∧
    (∀ t, startO = some (Exc.other t) → stopO = none →
      (run startO idleO stopO).2 = some (Exc.other t)) := by
  rcases startO with _ | e
  · cases stopO <;> simp [run]
  · cases e <;> cases stopO <;> simp [run]

/-- Witness for C9: a `KeyboardInterrupt` during startup with a clean
`stop`: teardown runs, `loop.stop()` is last, and `run` returns normally. -/
theorem run_teardown_discipline_witness :
    RunStep.callStop ∈ (run (some Exc.kb) none none).1 ∧
    (run (some Exc.kb) none none).1.getLast? = some RunStep.callLoopStop ∧
    RunStep.logWarnInterrupt ∈ (run (some Exc.kb) none none).1 ∧
    (run (some Exc.kb) none none).2 = none := by
  obtain ⟨h1, h2, h3, _⟩ := run_teardown_discipline (some Exc.kb) none none
  exact ⟨h1, h2, (h3 rfl).1, (h3 rfl).2.2 rfl⟩

/-- Claim C6: if any of `api_id`, `api_hash`, `bot_token` is absent/empty,
startup raises the `RuntimeError` naming that environment variable
(checked in that order), and no call to the external client has been made
— in particular the client is never connected. -/
theorem start_missing_credentials (env : StartEnv) :
    (env.config.api_id = "" →
      (startBot env).error = some "API_ID environment variable not set") ∧
    (env.config.api_id ≠ "" → env.config.api_hash = "" →
      (startBot env).error = some "API_HASH environment variable not set") ∧
    (env.config.api_id ≠ "" → env.config.api_hash ≠ "" →
        env.config.bot_token = "" →
      (startBot env).error = some "BOT_TOKEN environment variable not set") ∧
    ((env.config.api_id = "" ∨ env.config.api_hash = "" ∨
        env.config.bot_token = "") →
      (startBot env).calls = [] ∧ ClientCall.connect ∉ (startBot env).calls) := by
  refine ⟨?_, ?_, ?_, ?_⟩
  · intro h
    simp [startBot, h]
  · intro h1 h2
    simp [startBot, h1, h2]
  · intro h1 h2 h3
    simp [startBot, h1, h2, h3]
  · intro h
    rcases h with h | h | h
    · simp [startBot, h]
    · by_cases h1 : env.config.api_id = "" <;> simp [startBot, h1, h]
    · by_cases h1 : env.config.api_id = "" <;>
        by_cases h2 : env.config.api_hash = "" <;> simp [startBot, h1, h2, h]

/-- Witness for C6: empty `api_id` at a concrete environment. -/
theorem start_missing_credentials_witness :
    (startBot ⟨⟨"", "b", "c", "d", 7⟩, [], true, true, 42, [], 99⟩).error
      = some "API_ID environment variable not set" ∧
    (startBot ⟨⟨"", "b", "c", "d", 7⟩, [], true, true, 42, [], 99⟩).calls = [] := by
  obtain ⟨h1, _, _, h4⟩ :=
    start_missing_credentials ⟨⟨"", "b", "c", "d", 7⟩, [], true, true, 42, [], 99⟩
  exact ⟨h1 rfl, (h4 (Or.inl rfl)).1⟩

/-- Claim C7: with valid credentials, a missing mandatory plugin is a
distinct fatal error naming the plugin, raised after plugin loading and
after the `loaded` flag is set, but before the external client is
connected. -/
theorem start_mandatory_plugins (env : StartEnv)
    (h1 : env.config.api_id ≠ "") (h2 : env.config.api_hash ≠ "")
    (h3 : env.config.bot_token ≠ "") :
    ("Aria2" ∉ env.plugins →
      (startBot env).error = some "Aria2 websocket is not running, exiting..." ∧
      (startBot env).state.loaded = true ∧
      StartStep.loadPlugins ∈ (startBot env).trace ∧
      StartStep.dispatchEvent "load" ∈ (startBot env).trace ∧
      StartStep.setLoaded ∈ (startBot env).trace ∧
      StartStep.clientConnect ∉ (startBot env).trace) ∧
    ("Aria2" ∈ env.plugins → "GoogleDrive" ∉ env.plugins →
      (startBot env).error
        = some "GoogleDrive environment variable needed not set" ∧
      (startBot env).state.loaded = true ∧
      StartStep.clientConnect ∉ (startBot env).trace) ∧
    pyContains "Aria2" "Aria2 websocket is not running, exiting..." = true ∧
    pyContains "GoogleDrive" "GoogleDrive environment variable needed not set"
      = true ∧
    ("Aria2 websocket is not running, exiting..." : String)
      ≠ "GoogleDrive environment variable needed not set" := by
  refine ⟨?_, ?_, by decide, by decide, by decide⟩
  · intro ha
    simp [startBot, h1, h2, h3, ha]
  · intro ha hg
    simp [startBot, h1, h2, h3, ha, hg]

/-- Witness for C7: missing `Aria2` at a concrete environment. -/
theorem start_mandatory_plugins_witness :
    (startBot ⟨⟨"a", "b", "c", "d", 7⟩, ["GoogleDrive"], true, true, 42, [], 99⟩).error
      = some "Aria2 websocket is not running, exiting..." ∧
    (startBot ⟨⟨"a", "b", "c", "d", 7⟩, ["GoogleDrive"], true, true, 42, [], 99⟩).state.loaded
      = true := by
  obtain ⟨hA, _, _, _, _⟩ :=
    start_mandatory_plugins
      ⟨⟨"a", "b", "c", "d", 7⟩, ["GoogleDrive"], true, true, 42, [], 99⟩
      (by decide) (by decide) (by decide)
  exact ⟨(hA (by decide)).1, (hA (by decide)).2.1⟩

/-- Claim C3: at most one handler binding per category at any time, and
reconciliation is idempotent.  Reconciling a category that has listeners
and is already registered is a no-op (same state, no client call);
reconciling a category with no listeners that is not registered is
likewise a no-op; and along every sequence of reconcile calls from the
freshly initialized registry the handler dict holds at most one entry per
category. -/
theorem update_plugin_event_idempotent (listeners : String → Nat)
    (s : RegState) (name : String) (g : Int) :
    (∀ hg, 0 < listeners name → tblGet name s.table = some hg →
      update_plugin_event listeners s name g = (s, [])) ∧
    (listeners name = 0 → tblGet name s.table = none →
      update_plugin_event listeners s name g = (s, [])) ∧
    (∀ seq : List ((String → Nat) × String × Int), ∀ nh : Nat,
      ((runSeqFrom ⟨[], nh⟩ seq).1.table.filter
          (fun e => e.1 = name)).length ≤ 1) := by
  refine ⟨?_, ?_, ?_⟩
  · intro hg hl hget
    simp [update_plugin_event, hl, hget]
  · intro hl hget
    simp [update_plugin_event, hl, hget]
  · intro seq nh
    refine filter_key_length_le_one name _ ?_
    exact keysNodup_runSeqFrom seq ⟨[], nh⟩ (by simp [KeysNodup])

/-- Witness for C3: a registered category with listeners is left alone. -/
theorem update_plugin_event_idempotent_witness :
    update_plugin_event (fun _ => 1) ⟨[("message", 0, 0)], 1⟩ "message" 0
      = (⟨[("message", 0, 0)], 1⟩, []) ∧
    ((runSeqFrom ⟨[], 0⟩
        [(fun _ => 1, "message", 0), (fun _ => 1, "message", 0)]).1.table.filter
      (fun e => e.1 = "message")).length ≤ 1 := by
  obtain ⟨h1, _, h3⟩ :=
    update_plugin_event_idempotent (fun _ => 1) ⟨[("message", 0, 0)], 1⟩
      "message" 0
  exact ⟨h1 (0, 0) (by decide) rfl,
    h3 [(fun _ => 1, "message", 0), (fun _ => 1, "message", 0)] 0⟩

/-- Claim C4: reconciling a category that is registered but has no
listeners removes the hook from the client using exactly the
`(hook, group)` pair recorded in the dict, then deletes the dict entry,
leaving the category absent; and an install-then-remove pair uses the
same hook identity in both client calls. -/
theorem update_plugin_event_remove_recorded (listeners : String → Nat)
    (s : RegState) (name : String) (g grp : Int) (h : Nat) :
    (listeners name = 0 → tblGet name s.table = some (h, g) →
      update_plugin_event listeners s name grp
        = (⟨tblDel name s.table, s.nextHook⟩,
           [ClientCall.removeHandler h g]) ∧
      tblGet name (update_plugin_event listeners s name grp).1.table
        = none) ∧
    (∀ l1 l2 : String → Nat, 0 < l1 name → l2 name = 0 →
      tblGet name s.table = none →
      (update_plugin_event l1 s name grp).2
        = [ClientCall.addHandler s.nextHook grp] ∧
      (update_plugin_event l2 (update_plugin_event l1 s name grp).1 name grp).2
        = [ClientCall.removeHandler s.nextHook grp] ∧
      tblGet name
          (update_plugin_event l2
            (update_plugin_event l1 s name grp).1 name grp).1.table
        = none) := by
  constructor
  · intro hl hget
    have hupd : update_plugin_event listeners s name grp
        = (⟨tblDel name s.table, s.nextHook⟩,
           [ClientCall.removeHandler h g]) := by
      simp [update_plugin_event, hl, hget]
    exact ⟨hupd, by rw [hupd]; exact tblGet_tblDel name s.table⟩
  · intro l1 l2 hl1 hl2 hget
    have h1 : update_plugin_event l1 s name grp
        = (⟨s.table ++ [(name, s.nextHook, grp)], s.nextHook + 1⟩,
           [ClientCall.addHandler s.nextHook grp]) := by
      simp [update_plugin_event, hl1, hget]
    have hget1 : tblGet name (s.table ++ [(name, s.nextHook, grp)])
        = some (s.nextHook, grp) :=
      tblGet_append_single name s.table s.nextHook grp hget
    have h2 : update_plugin_event l2
        (update_plugin_event l1 s name grp).1 name grp
        = (⟨tblDel name (s.table ++ [(name, s.nextHook, grp)]),
            s.nextHook + 1⟩,
           [ClientCall.removeHandler s.nextHook grp]) := by
      rw [h1]
      simp [update_plugin_event, hl2, hget1]
    refine ⟨by rw [h1], by rw [h2], ?_⟩
    rw [h2]
    exact tblGet_tblDel name _

/-- Witness for C4: install then remove of `message` uses hook 5 both
times and ends with the category absent. -/
theorem update_plugin_event_remove_recorded_witness :
    (update_plugin_event (fun _ => 1) ⟨[], 5⟩ "message" 0).2
      = [ClientCall.addHandler 5 0] ∧
    (update_plugin_event (fun _ => 0)
        (update_plugin_event (fun _ => 1) ⟨[], 5⟩ "message" 0).1 "message" 0).2
      = [ClientCall.removeHandler 5 0] ∧
    tblGet "message"
        (update_plugin_event (fun _ => 0)
          (update_plugin_event (fun _ => 1) ⟨[], 5⟩ "message" 0).1
          "message" 0).1.table
      = none := by
  obtain ⟨_, h⟩ :=
    update_plugin_event_remove_recorded (fun _ => 0) ⟨[], 5⟩ "message" 0 0 0
  exact h (fun _ => 1) (fun _ => 0) (by decide) rfl rfl

/-- Claim C8: on every successful startup the lifecycle events dispatched
are exactly `"load"`, `"start"`, `"started"`, in that order and each
exactly once; `"load"` is dispatched before the `loaded` flag is set, and
`"start"` only after the sudoers set has been read in full from the
database. -/
theorem start_event_order (env : StartEnv)
    (h1 : env.config.api_id ≠ "") (h2 : env.config.api_hash ≠ "")
    (h3 : env.config.bot_token ≠ "")
    (h4 : "Aria2" ∈ env.plugins) (h5 : "GoogleDrive" ∈ env.plugins)
    (h6 : env.clientStartOk = true) (h7 : env.getMeOk = true) :
    (startBot env).error = none ∧
    (startBot env).trace.filterMap evName = ["load", "start", "started"] ∧
    ∃ t1 t2 t3 t4 t5 : List StartStep,
      (startBot env).trace
        = t1 ++ StartStep.dispatchEvent "load" :: (t2 ++ StartStep.setLoaded ::
            (t3 ++ StartStep.dbFind env.sudoRecords ::
              (t4 ++ StartStep.dispatchEvent "start" :: t5))) := by
  have htr : (startBot env).trace
      = [StartStep.initClient, StartStep.addCoreHandler 0 (-1),
         StartStep.addCoreHandler 1 0, StartStep.loadPlugins,
         StartStep.dispatchEvent "load", StartStep.setLoaded,
         StartStep.clientConnect, StartStep.getMe,
         StartStep.dbFind env.sudoRecords, StartStep.dispatchEvent "start",
         StartStep.logReady, StartStep.dispatchEvent "started"] := by
    simp [startBot, h1, h2, h3, h4, h5, h6, h7]
  have herr : (startBot env).error = none := by
    simp [startBot, h1, h2, h3, h4, h5, h6, h7]
  refine ⟨herr, ?_, ?_⟩
  · rw [htr]
    simp [evName]
  · refine ⟨[StartStep.initClient, StartStep.addCoreHandler 0 (-1),
      StartStep.addCoreHandler 1 0, StartStep.loadPlugins], [],
      [StartStep.clientConnect, StartStep.getMe], [],
      [StartStep.logReady, StartStep.dispatchEvent "started"], ?_⟩
    rw [htr]
    rfl

/-- Witness for C8: the concrete successful environment. -/
theorem start_event_order_witness :
    (startBot envC5).error = none ∧
    (startBot envC5).trace.filterMap evName = ["load", "start", "started"] := by
  obtain ⟨he, hf, _⟩ := start_event_order envC5 (by decide) (by decide)
    (by decide) (by decide) (by decide) rfl rfl
  exact ⟨he, hf⟩

theorem applyCalls_append (inst : Multiset (Nat × Int))
    (a b : List ClientCall) :
    applyCalls inst (a ++ b) = applyCalls (applyCalls inst a) b := by
  simp [applyCalls, List.foldl_append]

theorem tblGet_mem (name : String) (t : HandlerTable) (hg : Nat × Int)
    (h : tblGet name t = some hg) : (name, hg) ∈ t := by
  induction t with
  | nil => simp [tblGet] at h
  | cons e rest ih =>
    rcases e with ⟨n, hv, gv⟩
    by_cases hn : n = name
    · subst hn
      simp only [tblGet, if_true] at h
      rw [Option.some_inj] at h
      rw [← h]
      exact List.mem_cons_self _ _
    · simp only [tblGet, hn, if_false] at h
      exact List.mem_cons_of_mem _ (ih h)

theorem mem_tableMS (t : HandlerTable) (name : String) (hg : Nat × Int)
    (h : (name, hg) ∈ t) : hg ∈ tableMS t := by
  simp only [tableMS, Multiset.mem_coe, List.mem_map]
  exact ⟨(name, hg), h, rfl⟩

theorem tableMS_tblDel (name : String) (t : HandlerTable) (hg : Nat × Int)
    (hkeys : (t.map (fun e => e.1)).Nodup)
    (hhooks : (t.map (fun e => e.2.1)).Nodup)
    (h : tblGet name t = some hg) :
    tableMS (tblDel name t) = (tableMS t).erase hg := by
  induction t with
  | nil => simp [tblGet] at h
  | cons e rest ih =>
    rcases e with ⟨n, hv, gv⟩
    simp only [List.map_cons, List.nodup_cons] at hkeys hhooks
    by_cases hn : n = name
    · subst hn
      simp only [tblGet, if_true] at h
      rw [Option.some_inj] at h
      have hrest : tblDel n ((n, hv, gv) :: rest) = rest := by
        simp only [tblDel, List.filter_cons]
        have hhead : (decide ((n, hv, gv).1 ≠ n)) = false := by simp
        rw [hhead]
        refine List.filter_eq_self.mpr ?_
        intro a ha
        simp only [decide_eq_true_eq]
        intro hk
        exact hkeys.1 (hk ▸ List.mem_map_of_mem (fun e => e.1) ha)
      rw [hrest, ← h]
      have : tableMS ((n, hv, gv) :: rest) = (hv, gv) ::ₘ tableMS rest := rfl
      rw [this, Multiset.erase_cons_head]
    · simp only [tblGet, hn, if_false] at h
      have hne : (hv, gv) ≠ hg := by
        intro he
        have hmem : (name, hg) ∈ rest := tblGet_mem name rest hg h
        have : hg.1 ∈ rest.map (fun e => e.2.1) := by
          simpa using List.mem_map_of_mem (fun e => e.2.1) hmem
        rw [← he] at this
        exact hhooks.1 this
      have hdel : tblDel name ((n, hv, gv) :: rest)
          = (n, hv, gv) :: tblDel name rest := by
        simp only [tblDel, List.filter_cons]
        have hhead : (decide ((n, hv, gv).1 ≠ name)) = true := by
          simpa using hn
        rw [hhead]
        simp
      rw [hdel]
      have h1 : tableMS ((n, hv, gv) :: tblDel name rest)
          = (hv, gv) ::ₘ tableMS (tblDel name rest) := rfl
      have h2 : tableMS ((n, hv, gv) :: rest)
          = (hv, gv) ::ₘ tableMS rest := rfl
      rw [h1, h2, Multiset.erase_cons_tail _ hne,
        ih hkeys.2 hhooks.2 h]

/-- One `update_plugin_event` step preserves the registry invariant and
keeps the client's installed-handler multiset equal to the two core
handlers plus exactly the pairs recorded in the dict. -/
theorem regStep (l : String → Nat) (s : RegState) (name : String) (g : Int)
    (inst : Multiset (Nat × Int)) (hinv : RegInv s)
    (hinst : inst = coreMS + tableMS s.table) :
    RegInv (update_plugin_event l s name g).1 ∧
    applyCalls inst (update_plugin_event l s name g).2
      = coreMS + tableMS (update_plugin_event l s name g).1.table := by
  by_cases hl : 0 < l name
  · cases hget : tblGet name s.table with
    | some v =>
      have hupd : update_plugin_event l s name g = (s, []) := by
        simp [update_plugin_event, hl, hget]
      rw [hupd]
      exact ⟨hinv, by simpa [applyCalls] using hinst⟩
    | none =>
      have hupd : update_plugin_event l s name g
          = (⟨s.table ++ [(name, s.nextHook, g)], s.nextHook + 1⟩,
             [ClientCall.addHandler s.nextHook g]) := by
        simp [update_plugin_event, hl, hget]
      rw [hupd]
      constructor
      · refine ⟨?_, ?_, ?_⟩
        · simp only [List.map_append, List.map_cons, List.map_nil]
          rw [List.nodup_append]
          refine ⟨hinv.keys, List.nodup_singleton name, ?_⟩
          intro a ha hb
          simp only [List.mem_singleton] at hb
          subst hb
          exact tblGet_none_not_mem _ s.table hget ha
        · simp only [List.map_append, List.map_cons, List.map_nil]
          rw [List.nodup_append]
          refine ⟨hinv.hooks, List.nodup_singleton s.nextHook, ?_⟩
          intro a ha hb
          simp only [List.mem_singleton] at hb
          subst hb
          rcases List.mem_map.mp ha with ⟨e, he, hev⟩
          exact absurd (hev ▸ hinv.bound e he) (lt_irrefl _)
        · intro e he
          rcases List.mem_append.mp he with h1 | h1
          · exact Nat.lt_succ_of_lt (hinv.bound e h1)
          · simp only [List.mem_singleton] at h1
            subst h1
            exact Nat.lt_succ_self _
      · simp only [applyCalls, List.foldl_cons, List.foldl_nil, applyCall]
        rw [hinst, ← Multiset.singleton_add]
        have : tableMS (s.table ++ [(name, s.nextHook, g)])
            = tableMS s.table + {(s.nextHook, g)} := by
          simp only [tableMS, List.map_append, List.map_cons, List.map_nil]
          rw [← Multiset.coe_add]
          simp
        rw [this]
        abel
  · cases hget : tblGet name s.table with
    | some v =>
      rcases v with ⟨hv, gv⟩
      have hupd : update_plugin_event l s name g
          = (⟨tblDel name s.table, s.nextHook⟩,
             [ClientCall.removeHandler hv gv]) := by
        simp [update_plugin_event, hl, hget]
      rw [hupd]
      constructor
      · refine ⟨?_, ?_, ?_⟩
        · exact List.Nodup.sublist
            (List.Sublist.map _ (List.filter_sublist s.table)) hinv.keys
        · exact List.Nodup.sublist
            (List.Sublist.map _ (List.filter_sublist s.table)) hinv.hooks
        · intro e he
          exact hinv.bound e (List.mem_of_mem_filter he)
      · simp only [applyCalls, List.foldl_cons, List.foldl_nil, applyCall]
        have hmem : ((hv, gv) : Nat × Int) ∈ tableMS s.table :=
          mem_tableMS s.table name (hv, gv) (tblGet_mem name s.table _ hget)
        rw [hinst, Multiset.erase_add_right_pos _ hmem,
          tableMS_tblDel name s.table (hv, gv) hinv.keys hinv.hooks hget]
    | none =>
      have hupd : update_plugin_event l s name g = (s, []) := by
        simp [update_plugin_event, hl, hget]
      rw [hupd]
      exact ⟨hinv, by simpa [applyCalls] using hinst⟩

/-- Running any reconcile sequence preserves the invariant and the
correspondence between the client's installed handlers and the dict. -/
theorem regRun (seq : List ((String → Nat) × String × Int)) (s : RegState)
    (inst : Multiset (Nat × Int)) (hinv : RegInv s)
    (hinst : inst = coreMS + tableMS s.table) :
    RegInv (runSeqFrom s seq).1 ∧
    applyCalls inst (runSeqFrom s seq).2
      = coreMS + tableMS (runSeqFrom s seq).1.table := by
  induction seq generalizing s inst with
  | nil => exact ⟨hinv, by simpa [runSeqFrom, applyCalls] using hinst⟩
  | cons step rest ih =>
    rcases step with ⟨l, n, g⟩
    obtain ⟨hinv1, heq1⟩ := regStep l s n g inst hinv hinst
    obtain ⟨hinv2, heq2⟩ :=
      ih (update_plugin_event l s n g).1
        (applyCalls inst (update_plugin_event l s n g).2) hinv1 heq1
    refine ⟨hinv2, ?_⟩
    show applyCalls inst
        ((update_plugin_event l s n g).2
          ++ (runSeqFrom (update_plugin_event l s n g).1 rest).2)
      = _
    rw [applyCalls_append]
    exact heq2

/-- Counterexample to C5 as stated: immediately after a successful start
the two permanent core handlers are installed on the client (two
`(hook, group)` pairs live), yet `events_activated` reads 0 — the read
does not include the core categories, because `start` installs them via
`client.add_handler` without recording them in
`_plugin_event_handlers`. -/
theorem events_activated_core_not_counted :
    (applyCalls 0 (startBot envC5).calls).card = 2 ∧
    events_activated (startBot envC5).state.reg = 0 ∧
    events_activated (startBot envC5).state.reg
      ≠ (applyCalls 0 (startBot envC5).calls).card := by
  have hcalls : (startBot envC5).calls
      = [ClientCall.addHandler 0 (-1), ClientCall.addHandler 1 0,
         ClientCall.connect, ClientCall.getMe] := by decide
  have hcard : (applyCalls 0 (startBot envC5).calls).card = 2 := by
    rw [hcalls]
    rfl
  exact ⟨hcard, rfl, by rw [hcard]; decide⟩

/-- Claim C5, amended: `events_activated` returns the number of currently
installed *dynamic* bindings only (the size of `_plugin_event_handlers`);
the two permanent core handlers are installed outside that dict, so at
every point after a successful start the client holds exactly
`events_activated + 2` installed handlers. -/
theorem events_activated_counts_dynamic_only (env : StartEnv)
    (seq : List ((String → Nat) × String × Int))
    (h1 : env.config.api_id ≠ "") (h2 : env.config.api_hash ≠ "")
    (h3 : env.config.bot_token ≠ "")
    (h4 : "Aria2" ∈ env.plugins) (h5 : "GoogleDrive" ∈ env.plugins)
    (h6 : env.clientStartOk = true) (h7 : env.getMeOk = true) :
    events_activated (runSeqFrom (startBot env).state.reg seq).1
      = (runSeqFrom (startBot env).state.reg seq).1.table.length ∧
    (applyCalls 0
        ((startBot env).calls
          ++ (runSeqFrom (startBot env).state.reg seq).2)).card
      = events_activated (runSeqFrom (startBot env).state.reg seq).1 + 2 := by
  have hreg : (startBot env).state.reg = ⟨[], 2⟩ := by
    simp [startBot, h1, h2, h3, h4, h5, h6, h7, initialBot]
  have hcalls : (startBot env).calls
      = [ClientCall.addHandler 0 (-1), ClientCall.addHandler 1 0,
         ClientCall.connect, ClientCall.getMe] := by
    simp [startBot, h1, h2, h3, h4, h5, h6, h7]
  have hcore :
      applyCalls 0
        [ClientCall.addHandler 0 (-1), ClientCall.addHandler 1 0,
         ClientCall.connect, ClientCall.getMe] = coreMS := by
    show ((1, 0) : Nat × Int) ::ₘ (0, -1) ::ₘ 0 = coreMS
    rw [Multiset.cons_swap]
    rfl
  obtain ⟨_, heq⟩ :=
    regRun seq ⟨[], 2⟩ coreMS
      ⟨List.nodup_nil, List.nodup_nil, by intro e he; simp at he⟩
      (by simp [tableMS, coreMS])
  refine ⟨rfl, ?_⟩
  rw [hreg, hcalls, applyCalls_append, hcore, heq]
  simp only [Multiset.card_add, events_activated]
  have hc : coreMS.card = 2 := rfl
  have ht : (tableMS (runSeqFrom ⟨[], 2⟩ seq).1.table).card
      = (runSeqFrom ⟨[], 2⟩ seq).1.table.length := by
    simp [tableMS]
  rw [hc, ht]
  omega

/-- Witness for C5's amended theorem: concrete environment, empty
reconcile sequence — two installed handlers, zero dynamic bindings. -/
theorem events_activated_counts_dynamic_only_witness :
    (applyCalls 0
        ((startBot envC5).calls
          ++ (runSeqFrom (startBot envC5).state.reg []).2)).card
      = events_activated (runSeqFrom (startBot envC5).state.reg []).1 + 2 :=
  (events_activated_counts_dynamic_only envC5 [] (by decide) (by decide)
    (by decide) (by decide) (by decide) rfl rfl).2

end TgBot
